import Mathlib

/-!
Shallow embedding of the key-management and session-unlock engine of the
encrypted offline client (crypto-service.js, session-manager.js,
public/session-manager.js, client.js setupOfflineAccess, db-service /
service-worker-client stores).

Platform crypto (WebCrypto AES-GCM, PBKDF2) is modelled symbolically:
an authenticated ciphertext is a term recording the key material and the
nonce under which it was produced, and authenticated decryption succeeds
exactly when the same key material and nonce are presented (the standard
symbolic idealisation of an AEAD: a wrong key or a tampered nonce gives an
authentication failure with overwhelming probability, modelled as certain
failure). Randomness (getRandomValues) is threaded explicitly as an `Rng`
state, so nonce generation stays an internal step of the operations that
the source performs it in, never a caller-supplied value.
-/

namespace EncClient

/-- Byte strings, as in the source's Uint8Array / ArrayBuffer values. -/
abbrev Bytes := List Nat

/-- crypto-service.js `PBKDF2_ITERATIONS`. -/
def PBKDF2_ITERATIONS : Nat := 600000

/-- crypto-service.js `SALT_LENGTH_BYTES`. -/
def SALT_LENGTH_BYTES : Nat := 16

/-- crypto-service.js `IV_LENGTH_BYTES`. -/
def IV_LENGTH_BYTES : Nat := 12

/-- WebCrypto key usages that appear in the source. -/
inductive Usage where
  | encrypt
  | decrypt
  | wrapKey
  | unwrapKey
  | deriveKey
deriving DecidableEq

/-- Key material of a platform CryptoKey: either raw imported bytes or the
result of the PBKDF2 derivation from a pin, a salt and an iteration count
(symbolic: the derivation is collision-free by construction). -/
inductive KeyMaterial where
  | raw (bytes : Bytes)
  | pbkdf2 (pin : String) (salt : Bytes) (iterations : Nat)
deriving DecidableEq

/-- Model of a WebCrypto CryptoKey: material plus the extractable flag and
usage list fixed at import/derive time, which the platform enforces. -/
structure CryptoKey where
  material : KeyMaterial
  extractable : Bool
  usages : List Usage
deriving DecidableEq

/-- Symbolic AES-GCM authenticated ciphertext over a payload type: records
the key material and nonce it was produced under. -/
structure AeadCt (α : Type) where
  key : KeyMaterial
  iv : Bytes
  payload : α
deriving DecidableEq

/-- A stored blob in the source's layout nonce-then-ciphertext: the code
prepends the 12-byte IV and later slices it off; the two slices are the two
fields here. -/
structure Blob (α : Type) where
  iv : Bytes
  ct : AeadCt α
deriving DecidableEq

/-- Explicit randomness state standing for window.crypto.getRandomValues. -/
abbrev Rng := Nat

/-- Draw n pseudo-random bytes and advance the rng state. -/
def randomBytes (n : Nat) (r : Rng) : Bytes × Rng :=
  ((List.range n).map (fun i => (r + i) % 256), r + n)

/-- Internal IV generation, `getRandomValues(new Uint8Array(IV_LENGTH_BYTES))`. -/
def genIv (r : Rng) : Bytes × Rng := randomBytes IV_LENGTH_BYTES r

/-- crypto-service.js `generateSalt`. -/
def generateSalt (r : Rng) : Bytes × Rng := randomBytes SALT_LENGTH_BYTES r

/-- WebCrypto `subtle.importKey`: fixes material, extractability and usages. -/
def importKey (m : KeyMaterial) (extractable : Bool) (usages : List Usage) :
    CryptoKey :=
  ⟨m, extractable, usages⟩

/-- WebCrypto `subtle.exportKey("raw", k)`: succeeds only on an extractable
key, returning its material. -/
def exportKey (k : CryptoKey) : Option KeyMaterial :=
  if k.extractable then some k.material else none

/-- Symbolic AES-GCM encryption under key material and a nonce. -/
def gcmEncrypt {α : Type} (key : KeyMaterial) (iv : Bytes) (p : α) : AeadCt α :=
  ⟨key, iv, p⟩

/-- Symbolic AES-GCM authenticated decryption: succeeds, returning the
payload, exactly when the presented key material and nonce are the ones the
ciphertext was produced under; otherwise the authentication tag fails and
the operation fails closed. -/
def gcmDecrypt {α : Type} (key : KeyMaterial) (iv : Bytes) (c : AeadCt α) :
    Option α :=
  if c.key = key ∧ c.iv = iv then some c.payload else none

/-- TextEncoder.encode, as an injective character-to-number encoding. -/
def textEncode (s : String) : Bytes := s.data.map Char.toNat

/-- TextDecoder.decode, the partial inverse of `textEncode`. -/
def textDecode (bs : Bytes) : String := String.mk (bs.map Char.ofNat)

/-- crypto-service.js `deriveMasterKey(pin, salt)`: imports the pin for
PBKDF2 (which never fails, whatever the pin) and derives an AES-GCM key,
extractable, restricted to wrapKey/unwrapKey. Collapsed to one total
function since neither platform call has a failure branch in the source. -/
def deriveMasterKey (pin : String) (salt : Bytes) : CryptoKey :=
  importKey (.pbkdf2 pin salt PBKDF2_ITERATIONS) true [.wrapKey, .unwrapKey]

/-- crypto-service.js `wrapDek(masterKey, dek)`: draws a fresh internal IV,
wraps (exports and AEAD-encrypts) the dek's raw material under the master
key, and returns IV-prepended blob. The platform requires the wrapping key
to carry the wrapKey usage and the wrapped key to be extractable. -/
def wrapDek (masterKey dek : CryptoKey) (r : Rng) :
    Option (Blob KeyMaterial × Rng) :=
  if .wrapKey ∈ masterKey.usages ∧ dek.extractable then
    let iv := (genIv r).1
    some (⟨iv, gcmEncrypt masterKey.material iv dek.material⟩, (genIv r).2)
  else none

/-- crypto-service.js `unwrapDek(masterKey, ivAndWrappedDek)`: slices off
the IV, authenticated-decrypts, and on success imports the recovered
material as an extractable AES-GCM key with encrypt/decrypt usages,
exactly as the source's unwrapKey call specifies. -/
def unwrapDek (masterKey : CryptoKey) (b : Blob KeyMaterial) :
    Option CryptoKey :=
  if .unwrapKey ∈ masterKey.usages then
    (gcmDecrypt masterKey.material b.iv b.ct).map
      (fun m => importKey m true [.encrypt, .decrypt])
  else none

/-- crypto-service.js `encryptData(dek, plaintext)`: fresh internal IV,
encode the plaintext, AEAD-encrypt under the dek, return IV-prepended blob.
The platform requires the encrypt usage on the key. -/
def encryptData (dek : CryptoKey) (plaintext : String) (r : Rng) :
    Option (Blob Bytes × Rng) :=
  if .encrypt ∈ dek.usages then
    let iv := (genIv r).1
    some (⟨iv, gcmEncrypt dek.material iv (textEncode plaintext)⟩, (genIv r).2)
  else none

/-- crypto-service.js `decryptData(dek, ivAndCiphertext)`: slice off the IV,
authenticated-decrypt, decode. Fails closed on authentication failure. -/
def decryptData (dek : CryptoKey) (b : Blob Bytes) : Option String :=
  if .decrypt ∈ dek.usages then
    (gcmDecrypt dek.material b.iv b.ct).map textDecode
  else none

/-- Application items {id, content} as saved by client.js. -/
structure Item where
  id : String
  content : String
deriving DecidableEq

/-- JSON.stringify of an {id, content} item, modelled as an injective
flat encoding with an unambiguous separator. -/
def jsonStringify (it : Item) : String := it.id ++ "\x01" ++ it.content

/-- JSON.parse of an item encoding; fails (the source call throws) on a
string that is not the encoding of an item. -/
def jsonParse (s : String) : Option Item :=
  match s.data.span (fun c => c ≠ '\x01') with
  | (idPart, sep :: contentPart) =>
      if sep = '\x01' ∧ '\x01' ∉ contentPart then
        some ⟨String.mk idPart, String.mk contentPart⟩
      else none
  | (_, []) => none

/-- Persistent state seen by the root session-manager.js / client.js pair:
the metadata store entries userSalt and expiryTimestamp (db-service.js),
the wrapped-DEK mock cookie (service-worker-client.js / mock-server.js),
and the encrypted records store. -/
structure RootStore where
  userSalt : Option Bytes
  expiryTimestamp : Option Int
  cookieWrappedDek : Option (Blob KeyMaterial)
  records : String → Option (Blob Bytes)

/-- In-memory state of session-manager.js: the private field holding the
session DEK, null (`none`) when locked. -/
structure RootState where
  dek : Option CryptoKey
deriving DecidableEq

/-- session-manager.js `isLocked`. -/
def rootIsLocked (st : RootState) : Bool := st.dek = none

/-- session-manager.js `lockSession`. -/
def rootLockSession : RootState := ⟨none⟩

/-- session-manager.js `unlockSession(pin)`: reads the salt and the wrapped
DEK, fails (catch branch: returns false and locks) if either is absent,
derives the master key, unwraps, then exports the extractable unwrapped key
and re-imports it non-extractable with encrypt/decrypt usages as the
session DEK. Any thrown error lands in the catch branch, which locks the
session and returns false. -/
def rootUnlockSession (pin : String) (store : RootStore) : Bool × RootState :=
  match store.userSalt, store.cookieWrappedDek with
  | some salt, some wd =>
      match unwrapDek (deriveMasterKey pin salt) wd with
      | some extractableDek =>
          match exportKey extractableDek with
          | some rawDek =>
              (true, ⟨some (importKey rawDek false [.encrypt, .decrypt])⟩)
          | none => (false, rootLockSession)
      | none => (false, rootLockSession)
  | _, _ => (false, rootLockSession)

/-- Failure outcomes of the item read/write operations. -/
inductive ItemErr where
  | sessionLocked
  | authFailure
  | parseError
  | cryptoError
deriving DecidableEq

/-- session-manager.js `getDecryptedItem(id)` (root variant): throws the
locked error while locked; returns null when no record exists under id;
otherwise decrypts and JSON-parses, either step's throw propagating. -/
def rootGetDecryptedItem (st : RootState) (store : RootStore) (id : String) :
    Except ItemErr (Option Item) :=
  match st.dek with
  | none => .error .sessionLocked
  | some dek =>
      match store.records id with
      | none => .ok none
      | some blob =>
          match decryptData dek blob with
          | none => .error .authFailure
          | some pt =>
              match jsonParse pt with
              | some it => .ok (some it)
              | none => .error .parseError

/-- session-manager.js `saveItem(item)` (root variant): throws the locked
error while locked; otherwise encrypts the JSON encoding under the session
DEK and persists the record under the item's id. -/
def rootSaveItem (st : RootState) (store : RootStore) (item : Item)
    (r : Rng) : Except ItemErr (RootStore × Rng) :=
  match st.dek with
  | none => .error .sessionLocked
  | some dek =>
      match encryptData dek (jsonStringify item) r with
      | none => .error .cryptoError
      | some (blob, r') =>
          .ok ({store with
                  records := fun i =>
                    if i = item.id then some blob else store.records i}, r')

/-- The operations of the root session manager, for stating state-machine
invariants over every session operation. -/
inductive RootOp where
  | unlock (pin : String)
  | lock
  | getItem (id : String)
  | saveItem (item : Item) (r : Rng)

/-- One step of the root session manager: the session-state and store
effect of each operation (read/write leave the DEK field untouched; a
failed save leaves the store untouched, as the source's throw does). -/
def rootApplyOp (op : RootOp) (store : RootStore) (st : RootState) :
    RootState × RootStore :=
  match op with
  | .unlock pin => ((rootUnlockSession pin store).2, store)
  | .lock => (rootLockSession, store)
  | .getItem _ => (st, store)
  | .saveItem item r =>
      match rootSaveItem st store item r with
      | .ok (store', _) => (st, store')
      | .error _ => (st, store)

/-- A provisioned-user record as stored by public/db-service.js
saveProvisionedUser: the salt and wrapped DEK grouped under the username
(fields optional, mirroring the source's falsy-field check on
destructuring). -/
structure UserRec where
  salt : Option Bytes
  wrappedDek : Option (Blob KeyMaterial)
deriving DecidableEq

/-- Result of a getProvisionedUser store read: the read can itself fail
(an IndexedDB rejection, caught by unlockSession's try/catch) or succeed
with the record or its absence. -/
inductive UserRead where
  | ok (u : Option UserRec)
  | err
deriving DecidableEq

/-- Persistent state seen by the public (per-identity) session manager:
the users table keyed by username and the encrypted records table. -/
structure PubStore where
  users : String → UserRead
  records : String → Option (Blob Bytes)

/-- In-memory state of public/session-manager.js: the private DEK field. -/
structure PubState where
  dek : Option CryptoKey
deriving DecidableEq

/-- The distinct internal errors thrown on the unlock path of
public/session-manager.js, all caught by its try/catch and logged. -/
inductive UnlockErr where
  | emptyUsername
  | storeError
  | notProvisioned
  | incompleteData
  | authFailure
deriving DecidableEq

/-- The outcome of an unlockSession call: the boolean returned to the
caller, the resulting session state, and the error that was caught and
logged (none on success). -/
structure UnlockResult where
  success : Bool
  state : PubState
  logged : Option UnlockErr
deriving DecidableEq

/-- public/session-manager.js `unlockSession(pin, username)`: rejects an
empty username, reads the user's provisioning record (a store rejection or
a missing or incomplete record each throws its own error), derives the
master key from the pin and stored salt, and unwraps the wrapped DEK; the
unwrapped key becomes the session DEK. Every thrown error is caught: the
catch branch locks the session, logs the error and returns false. -/
def unlockSession (pin username : String) (store : PubStore) : UnlockResult :=
  if username = "" then ⟨false, ⟨none⟩, some .emptyUsername⟩
  else
    match store.users username with
    | .err => ⟨false, ⟨none⟩, some .storeError⟩
    | .ok none => ⟨false, ⟨none⟩, some .notProvisioned⟩
    | .ok (some u) =>
        match u.salt, u.wrappedDek with
        | some salt, some wd =>
            let masterKey := deriveMasterKey pin salt
            match unwrapDek masterKey wd with
            | some dek => ⟨true, ⟨some dek⟩, none⟩
            | none => ⟨false, ⟨none⟩, some .authFailure⟩
        | _, _ => ⟨false, ⟨none⟩, some .incompleteData⟩

/-- public/session-manager.js `getDecryptedItem(id)`: throws the locked
error while locked; returns null when no record exists under id; otherwise
decrypts and JSON-parses. -/
def getDecryptedItem (st : PubState) (store : PubStore) (id : String) :
    Except ItemErr (Option Item) :=
  match st.dek with
  | none => .error .sessionLocked
  | some dek =>
      match store.records id with
      | none => .ok none
      | some blob =>
          match decryptData dek blob with
          | none => .error .authFailure
          | some pt =>
              match jsonParse pt with
              | some it => .ok (some it)
              | none => .error .parseError

/-- The steps of client.js setupOfflineAccess at which an external call can
fail: the mock-server provisioning request, the two metadata writes, and
the cookie write. The crypto steps between them have no failure branch. -/
inductive FailStep where
  | server
  | saveSalt
  | saveExpiry
  | setCookie
deriving DecidableEq

/-- client.js `setupOfflineAccess`, with an explicit failure schedule for
its fallible external calls. In source order: pin policy check, salt
generation, server provisioning request (returning the raw DEK and expiry,
passed here as parameters), raw-DEK import, master-key derivation, DEK
wrapping, then persist userSalt, then expiryTimestamp, then the wrapped-DEK
cookie. A failure at any step is caught after the writes already made, so
the store progress up to the failing step is kept, exactly as in the
sequential awaits of the source. -/
def setupOfflineAccess (pin : String) (failAt : Option FailStep)
    (serverDek : Bytes) (serverExpiry : Int) (r : Rng) (store : RootStore) :
    Bool × RootStore :=
  if pin.length < 6 then (false, store)
  else
    let salt := (generateSalt r).1
    let r₁ := (generateSalt r).2
    if failAt = some .server then (false, store)
    else
      let dekAsCryptoKey := importKey (.raw serverDek) true [.encrypt, .decrypt]
      let masterKey := deriveMasterKey pin salt
      match wrapDek masterKey dekAsCryptoKey r₁ with
      | none => (false, store)
      | some (wrappedDek, _) =>
          if failAt = some .saveSalt then (false, store)
          else
            let store₁ := {store with userSalt := some salt}
            if failAt = some .saveExpiry then (false, store₁)
            else
              let store₂ := {store₁ with expiryTimestamp := some serverExpiry}
              if failAt = some .setCookie then (false, store₂)
              else (true, {store₂ with cookieWrappedDek := some wrappedDek})

/-! Concrete fixtures used to evaluate the definitions on closed inputs. -/

/-- A concrete 16-byte salt, as generateSalt would draw from rng state 0. -/
def salt0 : Bytes := (generateSalt 0).1

/-- A concrete 32-byte raw DEK as issued by the mock server. -/
def rawDek0 : Bytes := (List.range 32).map (fun i => i + 1)

/-- The imported DEK CryptoKey (extractable, encrypt/decrypt), as
client.js imports the server-issued raw DEK. -/
def dek0 : CryptoKey := importKey (.raw rawDek0) true [.encrypt, .decrypt]

/-- The master key derived from pin 123456 and `salt0`. -/
def mk0 : CryptoKey := deriveMasterKey "123456" salt0

/-- The blob produced by wrapping `dek0` under `mk0` with rng state 16. -/
def cWrapBlob : Blob KeyMaterial :=
  ⟨(genIv 16).1, gcmEncrypt mk0.material (genIv 16).1 dek0.material⟩

/-- The blob produced by wrapping `dek0` under `mk0` with rng state 0. -/
def cWrapBlob2 : Blob KeyMaterial :=
  ⟨(genIv 0).1, gcmEncrypt mk0.material (genIv 0).1 dek0.material⟩

/-- A fully provisioned root store whose expiry timestamp is already in the
past (absolute time 0). -/
def cExpStore : RootStore :=
  ⟨some salt0, some 0, some cWrapBlob, fun _ => none⟩

/-- The root store of a never-provisioned device. -/
def emptyRootStore : RootStore := ⟨none, none, none, fun _ => none⟩

/-- The provisioned-user record for alice: `salt0` with `dek0` wrapped
under the master key of pin 123456. -/
def uRec0 : UserRec := ⟨some salt0, some cWrapBlob⟩

/-- A per-identity store in which alice is provisioned with pin 123456. -/
def cProvStore : PubStore :=
  ⟨fun n => if n = "alice" then .ok (some uRec0) else .ok none, fun _ => none⟩

/-- A per-identity store with no provisioned users at all. -/
def cNPStore : PubStore := ⟨fun _ => .ok none, fun _ => none⟩

/-! Helper lemmas about the crypto layer. -/

/-- Decoding inverts encoding: the TextDecoder of a TextEncoder output is
the original string. -/
theorem textDecode_textEncode (s : String) : textDecode (textEncode s) = s := by
  have h : ((Char.ofNat ∘ Char.toNat) : Char → Char) = id :=
    funext fun c => Char.ofNat_toNat c
  simp [textDecode, textEncode, List.map_map, h]

/-- A data blob encrypted under one key decrypts under any key carrying the
same material and the decrypt usage. -/
theorem decryptData_encryptData (k₁ k₂ : CryptoKey) (pt : String) (r : Rng)
    (b : Blob Bytes) (r' : Rng) (hm : k₂.material = k₁.material)
    (hd : Usage.decrypt ∈ k₂.usages)
    (he : encryptData k₁ pt r = some (b, r')) :
    decryptData k₂ b = some pt := by
  unfold encryptData at he
  split at he
  · simp only [Option.some.injEq, Prod.mk.injEq] at he
    obtain ⟨hb, _⟩ := he
    subst hb
    simp [decryptData, gcmDecrypt, gcmEncrypt, hd, hm, textDecode_textEncode]
  · exact absurd he (by simp)

/-- Unwrapping a wrap under the same master key succeeds and re-imports the
wrapped key's material as an extractable encrypt/decrypt key. -/
theorem unwrapDek_wrapDek (mk dek : CryptoKey) (r : Rng)
    (b : Blob KeyMaterial) (r' : Rng)
    (hu : Usage.unwrapKey ∈ mk.usages)
    (hw : wrapDek mk dek r = some (b, r')) :
    unwrapDek mk b = some (importKey dek.material true [.encrypt, .decrypt]) := by
  unfold wrapDek at hw
  split at hw
  · simp only [Option.some.injEq, Prod.mk.injEq] at hw
    obtain ⟨hb, _⟩ := hw
    subst hb
    simp [unwrapDek, gcmDecrypt, gcmEncrypt, hu]
  · exact absurd hw (by simp)

/-- Unwrapping under a master key whose material differs from the wrapping
one fails closed: the authentication check rejects the blob. -/
theorem unwrapDek_wrapDek_wrong_key (mk mk' dek : CryptoKey) (r : Rng)
    (b : Blob KeyMaterial) (r' : Rng)
    (hm : mk'.material ≠ mk.material)
    (hw : wrapDek mk dek r = some (b, r')) :
    unwrapDek mk' b = none := by
  unfold wrapDek at hw
  split at hw
  · simp only [Option.some.injEq, Prod.mk.injEq] at hw
    obtain ⟨hb, _⟩ := hw
    subst hb
    unfold unwrapDek
    split
    · simp [gcmDecrypt, gcmEncrypt, Ne.symm hm]
    · rfl
  · exact absurd hw (by simp)

/-- The IV prefix of a successful wrap is exactly the internally drawn
nonce for the rng state the call was made with. -/
theorem wrapDek_iv (mk dek : CryptoKey) (r : Rng) (b : Blob KeyMaterial)
    (r' : Rng) (hw : wrapDek mk dek r = some (b, r')) :
    b = ⟨(genIv r).1, gcmEncrypt mk.material (genIv r).1 dek.material⟩ := by
  unfold wrapDek at hw
  split at hw
  · simp only [Option.some.injEq, Prod.mk.injEq] at hw
    exact hw.1.symm
  · exact absurd hw (by simp)

/-- Master keys derived from different pins over the same salt have
different material (collision-freeness of the symbolic PBKDF2). -/
theorem deriveMasterKey_material_ne (pin pin' : String) (salt : Bytes)
    (hp : pin ≠ pin') :
    (deriveMasterKey pin salt).material ≠ (deriveMasterKey pin' salt).material := by
  simp [deriveMasterKey, importKey, hp]

/-! Claim theorems. -/

/-- C2: contrary to the documented behaviour that the persisted
ExpiryTimestamp is compared against the current time at every unlock
attempt, rootUnlockSession never reads the expiry: a store whose expiry
(absolute time 0) is already past still unlocks successfully with the
correct pin, and the unlock result is invariant under arbitrary changes of
the stored expiry timestamp. -/
theorem expiry_not_checked_at_unlock :
    cExpStore.expiryTimestamp = some 0 ∧
    (rootUnlockSession "123456" cExpStore).1 = true ∧
    ∀ (pin : String) (e : Option Int) (s : RootStore),
      rootUnlockSession pin {s with expiryTimestamp := e} =
        rootUnlockSession pin s :=
  ⟨rfl, by decide, fun _ _ _ => rfl⟩

/-- C4: key derivation is a total deterministic function of the pin and the
salt: for every pin string (including the empty one) and every well-formed
16-byte salt it yields the PBKDF2-derived wrapping key (usages wrapKey and
unwrapKey), fully determined by its inputs, and a re-derivation from the
same inputs unwraps whatever the first derivation wrapped; no failure can
arise from the pin content. -/
theorem derive_total_deterministic (pin : String) (salt : Bytes)
    (_hs : salt.length = SALT_LENGTH_BYTES) :
    (deriveMasterKey pin salt).material = .pbkdf2 pin salt PBKDF2_ITERATIONS ∧
    (deriveMasterKey pin salt).usages = [.wrapKey, .unwrapKey] ∧
    ∀ (dek : CryptoKey) (r : Rng) (b : Blob KeyMaterial) (r' : Rng),
      wrapDek (deriveMasterKey pin salt) dek r = some (b, r') →
      unwrapDek (deriveMasterKey pin salt) b =
        some (importKey dek.material true [.encrypt, .decrypt]) := by
  refine ⟨rfl, rfl, fun dek r b r' hw => ?_⟩
  exact unwrapDek_wrapDek _ dek r b r' (by simp [deriveMasterKey, importKey]) hw

/-- C4 witness: derivation at the empty pin and a concrete 16-byte salt
yields a wrapping key. -/
theorem derive_total_deterministic_witness :
    (deriveMasterKey "" salt0).usages = [.wrapKey, .unwrapKey] :=
  (derive_total_deterministic "" salt0 (by decide)).2.1

/-- C6: DataCodec round-trip: decrypting an encryptData output with the
same data key returns the original plaintext. -/
theorem dataCodec_roundtrip (dek : CryptoKey) (pt : String) (r : Rng)
    (b : Blob Bytes) (r' : Rng)
    (hd : Usage.decrypt ∈ dek.usages)
    (he : encryptData dek pt r = some (b, r')) :
    decryptData dek b = some pt :=
  decryptData_encryptData dek dek pt r b r' rfl hd he

/-- C6 witness: a concrete plaintext encrypted under `dek0` decrypts back
to itself. -/
theorem dataCodec_roundtrip_witness :
    ∃ (b : Blob Bytes) (r' : Rng),
      encryptData dek0 "secret" 0 = some (b, r') ∧
      decryptData dek0 b = some "secret" :=
  ⟨_, _, rfl, dataCodec_roundtrip dek0 "secret" 0 _ _ (by decide) rfl⟩

/-- C7: KeyWrapCodec round-trip: unwrapping a wrap of a data key under the
same master key succeeds and yields a key functionally equivalent to the
original: data encrypted under the unwrapped key decrypts under the
original key, and vice versa. -/
theorem keyWrap_roundtrip (mk dek : CryptoKey) (r : Rng)
    (b : Blob KeyMaterial) (r' : Rng)
    (hu : Usage.unwrapKey ∈ mk.usages)
    (hw : wrapDek mk dek r = some (b, r')) :
    ∃ dek', unwrapDek mk b = some dek' ∧
      dek'.material = dek.material ∧
      (∀ (pt : String) (r₂ : Rng) (b₂ : Blob Bytes) (r₂' : Rng),
        Usage.decrypt ∈ dek.usages →
        encryptData dek' pt r₂ = some (b₂, r₂') →
        decryptData dek b₂ = some pt) ∧
      (∀ (pt : String) (r₂ : Rng) (b₂ : Blob Bytes) (r₂' : Rng),
        Usage.decrypt ∈ dek'.usages →
        encryptData dek pt r₂ = some (b₂, r₂') →
        decryptData dek' b₂ = some pt) := by
  refine ⟨importKey dek.material true [.encrypt, .decrypt],
    unwrapDek_wrapDek mk dek r b r' hu hw, rfl, ?_, ?_⟩
  · exact fun pt r₂ b₂ r₂' hd he =>
      decryptData_encryptData (importKey dek.material true [.encrypt, .decrypt])
        dek pt r₂ b₂ r₂' rfl hd he
  · exact fun pt r₂ b₂ r₂' hd he =>
      decryptData_encryptData dek
        (importKey dek.material true [.encrypt, .decrypt]) pt r₂ b₂ r₂' rfl hd he

/-- C7 witness: the concrete wrap of `dek0` under `mk0` unwraps to an
equivalent key. -/
theorem keyWrap_roundtrip_witness :
    ∃ dek', unwrapDek mk0 cWrapBlob = some dek' ∧
      dek'.material = dek0.material ∧
      (∀ (pt : String) (r₂ : Rng) (b₂ : Blob Bytes) (r₂' : Rng),
        Usage.decrypt ∈ dek0.usages →
        encryptData dek' pt r₂ = some (b₂, r₂') →
        decryptData dek0 b₂ = some pt) ∧
      (∀ (pt : String) (r₂ : Rng) (b₂ : Blob Bytes) (r₂' : Rng),
        Usage.decrypt ∈ dek'.usages →
        encryptData dek0 pt r₂ = some (b₂, r₂') →
        decryptData dek' b₂ = some pt) :=
  keyWrap_roundtrip mk0 dek0 16 cWrapBlob 28 (by decide) (by decide)

/-- C8: nonce generation is internal to wrapDek (the rng state, not a
nonce, is the only entropy input): two wrap calls with the same master key
and the same data key whose internally drawn nonces differ produce
different ciphertext blobs, and each of them unwraps under that master key
to a key re-importing the original data key's material. -/
theorem wrap_nonce_freshness (mk dek : CryptoKey) (r₁ r₂ : Rng)
    (b₁ b₂ : Blob KeyMaterial) (r₁' r₂' : Rng)
    (hu : Usage.unwrapKey ∈ mk.usages)
    (hiv : (genIv r₁).1 ≠ (genIv r₂).1)
    (h₁ : wrapDek mk dek r₁ = some (b₁, r₁'))
    (h₂ : wrapDek mk dek r₂ = some (b₂, r₂')) :
    b₁ ≠ b₂ ∧
    unwrapDek mk b₁ = some (importKey dek.material true [.encrypt, .decrypt]) ∧
    unwrapDek mk b₂ = some (importKey dek.material true [.encrypt, .decrypt]) := by
  refine ⟨?_, unwrapDek_wrapDek mk dek r₁ b₁ r₁' hu h₁,
    unwrapDek_wrapDek mk dek r₂ b₂ r₂' hu h₂⟩
  intro hbe
  rw [wrapDek_iv mk dek r₁ b₁ r₁' h₁, wrapDek_iv mk dek r₂ b₂ r₂' h₂] at hbe
  exact hiv (congrArg Blob.iv hbe)

/-- C8 witness: two concrete wraps of `dek0` under `mk0` from different rng
states give different blobs that both unwrap to the original material. -/
theorem wrap_nonce_freshness_witness :
    cWrapBlob ≠ cWrapBlob2 ∧
    unwrapDek mk0 cWrapBlob =
      some (importKey dek0.material true [.encrypt, .decrypt]) ∧
    unwrapDek mk0 cWrapBlob2 =
      some (importKey dek0.material true [.encrypt, .decrypt]) :=
  wrap_nonce_freshness mk0 dek0 16 0 cWrapBlob cWrapBlob2 28 12
    (by decide) (by decide) (by decide) (by decide)

/-- With no wrapped-DEK cookie present, the root unlock fails and the
session stays locked, whatever the pin and the rest of the store. -/
theorem rootUnlock_no_cookie (pin : String) (s : RootStore)
    (h : s.cookieWrappedDek = none) :
    rootUnlockSession pin s = (false, ⟨none⟩) := by
  unfold rootUnlockSession
  split
  · simp_all
  · rfl

/-- Every setupOfflineAccess run either leaves the wrapped-DEK cookie
untouched or reports success (the cookie is written only as the last step
of the success path). -/
theorem setup_cookie_cases (pin : String) (failAt : Option FailStep)
    (serverDek : Bytes) (expiry : Int) (r : Rng) (store : RootStore) :
    (setupOfflineAccess pin failAt serverDek expiry r
        store).2.cookieWrappedDek = store.cookieWrappedDek ∨
    (setupOfflineAccess pin failAt serverDek expiry r store).1 = true := by
  unfold setupOfflineAccess
  split
  · left; rfl
  · split
    · left; rfl
    · split
      · left; rfl
      · split
        · left; rfl
        · split
          · left; rfl
          · right; rfl

/-- A setupOfflineAccess run that reports failure never reaches the cookie
write: the wrapped-DEK cookie is left exactly as it was. -/
theorem setup_fail_cookie (pin : String) (failAt : Option FailStep)
    (serverDek : Bytes) (expiry : Int) (r : Rng) (store : RootStore)
    (hfail : (setupOfflineAccess pin failAt serverDek expiry r store).1 = false) :
    (setupOfflineAccess pin failAt serverDek expiry r store).2.cookieWrappedDek =
      store.cookieWrappedDek := by
  rcases setup_cookie_cases pin failAt serverDek expiry r store with h | h
  · exact h
  · rw [h] at hfail; exact absurd hfail (by simp)

/-- C3 counterexample: a provisioning run on an unprovisioned device that
fails at the final cookie-write step reports failure, yet the salt written
by the earlier sequential await stays persisted: partial state is
persisted, contradicting the claim that failure at any step persists
nothing. -/
theorem provisioning_partial_persist :
    (setupOfflineAccess "123456" (some .setCookie) rawDek0 0 0
        emptyRootStore).1 = false ∧
    emptyRootStore.userSalt = none ∧
    (setupOfflineAccess "123456" (some .setCookie) rawDek0 0 0
        emptyRootStore).2.userSalt = some salt0 ∧
    (setupOfflineAccess "123456" (some .setCookie) rawDek0 0 0
        emptyRootStore).2.cookieWrappedDek = none := by
  refine ⟨by decide, rfl, by decide, by decide⟩

/-- C3 amended: provisioning is not atomic — a failure among the
persistence steps can leave the salt (and expiry) persisted without the
wrapped key — but on a device whose wrapped-DEK cookie is absent, a failed
provisioning run never leaves state that unlock treats as provisioned:
every subsequent unlock attempt, with any pin, fails and leaves the
session locked. -/
theorem provisioning_fail_never_provisioned (pin : String)
    (failAt : Option FailStep) (serverDek : Bytes) (expiry : Int) (r : Rng)
    (store : RootStore) (hck : store.cookieWrappedDek = none)
    (hfail : (setupOfflineAccess pin failAt serverDek expiry r store).1 = false) :
    ∀ pin' : String,
      rootUnlockSession pin'
          (setupOfflineAccess pin failAt serverDek expiry r store).2 =
        (false, ⟨none⟩) := fun pin' =>
  rootUnlock_no_cookie pin' _
    ((setup_fail_cookie pin failAt serverDek expiry r store hfail).trans hck)

/-- C3 amended witness: after the concrete failed run of the
counterexample, unlocking with the provisioning pin still fails locked. -/
theorem provisioning_fail_never_provisioned_witness :
    rootUnlockSession "123456"
        (setupOfflineAccess "123456" (some .setCookie) rawDek0 0 0
          emptyRootStore).2 =
      (false, ⟨none⟩) :=
  provisioning_fail_never_provisioned "123456" (some .setCookie) rawDek0 0 0
    emptyRootStore rfl (by decide) "123456"

/-- C5 counterexample: an unlock against an unprovisioned identity and an
unlock with a wrong pin against a provisioned identity produce internally
distinct errors, yet the caller-visible outcome — the returned boolean and
the resulting session state — is identical in the two runs, so the caller
cannot distinguish NotProvisioned from AuthenticationFailure. -/
theorem unlock_failures_same_caller_result :
    (unlockSession "654321" "alice" cNPStore).logged =
      some .notProvisioned ∧
    (unlockSession "654321" "alice" cProvStore).logged =
      some .authFailure ∧
    (unlockSession "654321" "alice" cNPStore).success =
      (unlockSession "654321" "alice" cProvStore).success ∧
    (unlockSession "654321" "alice" cNPStore).state =
      (unlockSession "654321" "alice" cProvStore).state := by
  refine ⟨by decide, by decide, by decide, by decide⟩

/-- C5 amended: the unlock path raises internally distinct errors — a
NotProvisioned-style error when the identity has no persisted material, an
authentication failure when the pin is wrong — and the two are distinct
values, but unlockSession catches both and returns the same false result
with a locked state to its caller; only the logged error differs. -/
theorem unlock_error_kinds (pin username : String) (store : PubStore)
    (hU : username ≠ "") :
    (store.users username = .ok none →
      unlockSession pin username store =
        ⟨false, ⟨none⟩, some .notProvisioned⟩) ∧
    (∀ (u : UserRec) (salt : Bytes) (wd : Blob KeyMaterial) (pin₀ : String)
        (dek₀ : CryptoKey) (r r' : Rng),
      store.users username = .ok (some u) → u.salt = some salt →
      u.wrappedDek = some wd →
      wrapDek (deriveMasterKey pin₀ salt) dek₀ r = some (wd, r') →
      pin ≠ pin₀ →
      unlockSession pin username store =
        ⟨false, ⟨none⟩, some .authFailure⟩) ∧
    UnlockErr.notProvisioned ≠ UnlockErr.authFailure := by
  refine ⟨fun hnp => ?_,
    fun u salt wd pin₀ dek₀ r r' hu hs hw hwr hp => ?_, by decide⟩
  · simp [unlockSession, hU, hnp]
  · have hnone : unwrapDek (deriveMasterKey pin salt) wd = none :=
      unwrapDek_wrapDek_wrong_key (deriveMasterKey pin₀ salt)
        (deriveMasterKey pin salt) dek₀ r wd r'
        (deriveMasterKey_material_ne pin pin₀ salt hp) hwr
    simp [unlockSession, hU, hu, hs, hw, hnone]

/-- C5 amended witness: the two concrete failure runs produce the two
distinct logged errors with the same false caller result. -/
theorem unlock_error_kinds_witness :
    unlockSession "654321" "alice" cNPStore =
      ⟨false, ⟨none⟩, some .notProvisioned⟩ ∧
    unlockSession "654321" "alice" cProvStore =
      ⟨false, ⟨none⟩, some .authFailure⟩ :=
  ⟨(unlock_error_kinds "654321" "alice" cNPStore (by decide)).1 (by decide),
   (unlock_error_kinds "654321" "alice" cProvStore (by decide)).2.1
     uRec0 salt0 cWrapBlob "123456" dek0 16 28 (by decide) rfl rfl
     (by decide) (by decide)⟩

/-- Success of the per-identity unlock is characterised by the presence of
the identity's full material and a successful unwrap. -/
theorem unlock_success_char (pin username : String) (store : PubStore)
    (hU : username ≠ "") :
    (unlockSession pin username store).success = true ↔
      ∃ u salt wd dek, store.users username = .ok (some u) ∧
        u.salt = some salt ∧ u.wrappedDek = some wd ∧
        unwrapDek (deriveMasterKey pin salt) wd = some dek := by
  cases hu : store.users username with
  | err => simp [unlockSession, hU, hu]
  | ok uo =>
    cases uo with
    | none => simp [unlockSession, hU, hu]
    | some u =>
      cases hs : u.salt with
      | none => simp [unlockSession, hU, hu, hs]
      | some salt =>
        cases hw : u.wrappedDek with
        | none => simp [unlockSession, hU, hu, hs, hw]
        | some wd =>
          cases hk : unwrapDek (deriveMasterKey pin salt) wd with
          | none => simp [unlockSession, hU, hu, hs, hw, hk]
          | some dek => simp [unlockSession, hU, hu, hs, hw, hk]

/-- Every run of the per-identity unlock either fails with the session
left locked or succeeds with a key in the session state. -/
theorem unlock_result_cases (pin username : String) (store : PubStore) :
    ((unlockSession pin username store).success = false ∧
      (unlockSession pin username store).state = ⟨none⟩) ∨
    ∃ dek, (unlockSession pin username store).success = true ∧
      (unlockSession pin username store).state = ⟨some dek⟩ := by
  by_cases hU : username = ""
  · left; simp [unlockSession, hU]
  · cases hu : store.users username with
    | err => left; simp [unlockSession, hU, hu]
    | ok uo =>
      cases uo with
      | none => left; simp [unlockSession, hU, hu]
      | some u =>
        cases hs : u.salt with
        | none => left; simp [unlockSession, hU, hu, hs]
        | some salt =>
          cases hw : u.wrappedDek with
          | none => left; simp [unlockSession, hU, hu, hs, hw]
          | some wd =>
            cases hk : unwrapDek (deriveMasterKey pin salt) wd with
            | none => left; simp [unlockSession, hU, hu, hs, hw, hk]
            | some dek =>
              right; exact ⟨dek, by simp [unlockSession, hU, hu, hs, hw, hk]⟩

/-- C1: the per-identity unlock transitions to Unlocked exactly when the
identity's salt and wrapped DEK are found in the store and the unwrap
(whose success is the key-derivation and authentication check) succeeds;
on any failure the result is false and the session state holds no key; and
against material provisioned under a different pin, unlock always fails
locked (the wrong derivation makes the authentication tag fail), never
yielding a key. -/
theorem unlock_transition_spec (pin username : String) (store : PubStore)
    (hU : username ≠ "") :
    ((unlockSession pin username store).success = true ↔
      ∃ u salt wd dek, store.users username = .ok (some u) ∧
        u.salt = some salt ∧ u.wrappedDek = some wd ∧
        unwrapDek (deriveMasterKey pin salt) wd = some dek) ∧
    ((unlockSession pin username store).success = false →
      (unlockSession pin username store).state = ⟨none⟩) ∧
    ((unlockSession pin username store).success = true →
      ∃ dek, (unlockSession pin username store).state = ⟨some dek⟩) ∧
    (∀ (u : UserRec) (salt : Bytes) (wd : Blob KeyMaterial) (pin₀ : String)
        (dek₀ : CryptoKey) (r r' : Rng),
      store.users username = .ok (some u) → u.salt = some salt →
      u.wrappedDek = some wd →
      wrapDek (deriveMasterKey pin₀ salt) dek₀ r = some (wd, r') →
      pin ≠ pin₀ →
      (unlockSession pin username store).success = false ∧
      (unlockSession pin username store).state = ⟨none⟩) := by
  refine ⟨unlock_success_char pin username store hU, fun hf => ?_,
    fun ht => ?_, fun u salt wd pin₀ dek₀ r r' hu hs hw hwr hp => ?_⟩
  · rcases unlock_result_cases pin username store with ⟨_, hst⟩ | ⟨dek, hsucc, _⟩
    · exact hst
    · rw [hsucc] at hf; exact absurd hf (by simp)
  · rcases unlock_result_cases pin username store with ⟨hsucc, _⟩ | ⟨dek, _, hst⟩
    · rw [hsucc] at ht; exact absurd ht (by simp)
    · exact ⟨dek, hst⟩
  · have hnone : unwrapDek (deriveMasterKey pin salt) wd = none :=
      unwrapDek_wrapDek_wrong_key (deriveMasterKey pin₀ salt)
        (deriveMasterKey pin salt) dek₀ r wd r'
        (deriveMasterKey_material_ne pin pin₀ salt hp) hwr
    have hf : (unlockSession pin username store).success = false := by
      cases hsucc : (unlockSession pin username store).success with
      | false => rfl
      | true =>
        obtain ⟨u', salt', wd', dek', hu', hs', hw', hk'⟩ :=
          (unlock_success_char pin username store hU).mp hsucc
        rw [hu] at hu'
        obtain rfl : u = u' := by simpa using hu'
        rw [hs] at hs'
        obtain rfl : salt = salt' := by simpa using hs'
        rw [hw] at hw'
        obtain rfl : wd = wd' := by simpa using hw'
        rw [hnone] at hk'
        exact absurd hk' (by simp)
    refine ⟨hf, ?_⟩
    rcases unlock_result_cases pin username store with ⟨_, hst⟩ | ⟨dek, hsucc, _⟩
    · exact hst
    · rw [hsucc] at hf; exact absurd hf (by simp)

/-- C1 witness: the concrete provisioned identity unlocks with its own pin
and fails locked with a wrong pin. -/
theorem unlock_transition_spec_witness :
    (unlockSession "123456" "alice" cProvStore).success = true ∧
    (unlockSession "654321" "alice" cProvStore).state = ⟨none⟩ :=
  ⟨(unlock_transition_spec "123456" "alice" cProvStore (by decide)).1.mpr
      ⟨uRec0, salt0, cWrapBlob,
        importKey dek0.material true [.encrypt, .decrypt],
        by decide, rfl, rfl, by decide⟩,
   ((unlock_transition_spec "654321" "alice" cProvStore (by decide)).2.2.2
      uRec0 salt0 cWrapBlob "123456" dek0 16 28 (by decide) rfl rfl
      (by decide) (by decide)).2⟩

/-- Invariant of the root session manager's private DEK field: when a key
is held, it is non-extractable and restricted to encrypt/decrypt. -/
def RootInv (st : RootState) : Prop :=
  ∀ k, st.dek = some k →
    k.extractable = false ∧ k.usages = [.encrypt, .decrypt]

/-- The state produced by the root unlock always satisfies the DEK
invariant: on success the key was re-imported non-extractable with
encrypt/decrypt usages; on failure no key is held. -/
theorem rootUnlock_state_inv (pin : String) (store : RootStore) :
    RootInv (rootUnlockSession pin store).2 := by
  unfold rootUnlockSession
  split
  · split
    · split
      · intro k hk
        simp only [importKey] at hk
        obtain rfl : (⟨_, false, [.encrypt, .decrypt]⟩ : CryptoKey) = k :=
          Option.some.inj hk
        exact ⟨rfl, rfl⟩
      · exact fun k hk => nomatch hk
    · exact fun k hk => nomatch hk
  · exact fun k hk => nomatch hk

/-- C9: every session operation preserves the invariant that the private
DEK field is either empty (locked) or holds a non-extractable key limited
to encrypt/decrypt usages; the invariant holds initially; unwrapDek itself
returns an extractable key, yet a key held under the invariant cannot be
exported through the platform key API. -/
theorem session_dek_invariant :
    (∀ (op : RootOp) (store : RootStore) (st : RootState),
      RootInv st → RootInv (rootApplyOp op store st).1) ∧
    RootInv ⟨none⟩ ∧
    (∀ (mk : CryptoKey) (b : Blob KeyMaterial) (k : CryptoKey),
      unwrapDek mk b = some k → k.extractable = true) ∧
    (∀ (st : RootState) (k : CryptoKey),
      RootInv st → st.dek = some k → exportKey k = none) := by
  refine ⟨?_, ?_, ?_, ?_⟩
  · intro op store st hInv
    cases op with
    | unlock pin => exact rootUnlock_state_inv pin store
    | lock => exact fun k hk => nomatch hk
    | getItem id => exact hInv
    | saveItem item r =>
      cases hE : rootSaveItem st store item r with
      | ok res =>
          obtain ⟨s', r'⟩ := res
          simpa [rootApplyOp, hE] using hInv
      | error e => simpa [rootApplyOp, hE] using hInv
  · exact fun _ hk => nomatch hk
  · intro mk b k hk
    unfold unwrapDek at hk
    split at hk
    · cases hg : gcmDecrypt mk.material b.iv b.ct with
      | none => rw [hg] at hk; exact absurd hk (by simp)
      | some m =>
          rw [hg] at hk
          simp only [Option.map_some, importKey] at hk
          obtain rfl : (⟨m, true, [.encrypt, .decrypt]⟩ : CryptoKey) = k :=
            Option.some.inj hk
          rfl
    · exact absurd hk (by simp)
  · intro st k hInv hk
    have h := hInv k hk
    simp [exportKey, h.1]

/-- C9 witness: the invariant is preserved across a concrete successful
unlock from the locked state. -/
theorem session_dek_invariant_witness :
    RootInv (rootApplyOp (.unlock "123456") cExpStore ⟨none⟩).1 :=
  session_dek_invariant.1 (.unlock "123456") cExpStore ⟨none⟩
    (fun _ hk => nomatch hk)

/-- C10: while the session is unlocked, reading an id with no stored
record returns null (ok none) rather than an error; the locked error is
returned when, and only when, the call is made while locked. -/
theorem getDecryptedItem_spec (st : PubState) (store : PubStore)
    (id : String) :
    (st.dek ≠ none → store.records id = none →
      getDecryptedItem st store id = .ok none) ∧
    (st.dek = none →
      getDecryptedItem st store id = .error .sessionLocked) ∧
    (getDecryptedItem st store id = .error .sessionLocked →
      st.dek = none) := by
  refine ⟨fun hdek hrec => ?_, fun hdek => ?_, fun herr => ?_⟩
  · rcases hd : st.dek with _ | dek
    · exact absurd hd hdek
    · simp [getDecryptedItem, hd, hrec]
  · simp [getDecryptedItem, hdek]
  · rcases hd : st.dek with _ | dek
    · rfl
    · exfalso
      simp only [getDecryptedItem, hd] at herr
      cases hr : store.records id with
      | none => simp [hr] at herr
      | some blob =>
        simp only [hr] at herr
        cases hdc : decryptData dek blob with
        | none => simp [hdc] at herr
        | some pt =>
          simp only [hdc] at herr
          cases hp : jsonParse pt with
          | none => simp [hp] at herr
          | some it => simp [hp] at herr

/-- C10 witness: with the session unlocked on a store holding no records,
reading returns null; calling while locked gives the locked error. -/
theorem getDecryptedItem_spec_witness :
    getDecryptedItem ⟨some dek0⟩ cNPStore "r1" = .ok none ∧
    getDecryptedItem ⟨none⟩ cNPStore "r1" = .error .sessionLocked :=
  ⟨(getDecryptedItem_spec ⟨some dek0⟩ cNPStore "r1").1 (by simp) rfl,
   (getDecryptedItem_spec ⟨none⟩ cNPStore "r1").2.1 rfl⟩

end EncClient
